import Mathlib

/-!
# Progressive-deployment controller: verification of the specification

This file embeds the deployment-controller logic of the repository
(`lib/constructs/lambda-function.ts` and `src/shared/types.ts`) and the
abstract components its specification describes (RolloutPlanner,
HealthEvaluator, RollbackDecider, DeploymentOrchestrator,
CapacityAutoscaler), and proves or refutes the spec's claims about them.

The repository's own code is declarative CDK wiring: it declares the
CloudWatch alarm (metric expression, threshold, evaluation periods,
comparison operator), the CodeDeploy deployment group, and the
auto-scaling policy. The evaluation engines behind those declarations
(CloudWatch alarm evaluation, CodeDeploy traffic shifting and rollback,
application auto scaling) are external services; where a claim depends on
their behaviour, the corresponding definition is modelled from the spec
and says so in its doc comment. Everything that is decided by code in the
repository (`StandardLambdaFunction`'s constructor wiring,
`getDeploymentConfig`, `createErrorAlarm`'s declared expression and
threshold) is translated directly from that code.
-/

/-! ## Configuration records (from `src/shared/types.ts`) -/

/-- `AutoScalingConfig` from `src/shared/types.ts`. -/
structure AutoScalingConfig where
  enabled : Bool
  minCapacity : Nat
  maxCapacity : Nat
  utilizationTarget : ℚ
deriving DecidableEq, Repr

/-- The `alarms` field of `CodeDeployConfig` from `src/shared/types.ts`. -/
structure AlarmsConfig where
  enabled : Bool
  errorRateThreshold : ℚ
  evaluationPeriods : Nat
deriving DecidableEq, Repr

/-- `CodeDeployConfig` from `src/shared/types.ts`; `deploymentPreference`
is a string mapped by `getDeploymentConfig`. -/
structure CodeDeployConfig where
  enabled : Bool
  deploymentPreference : String
  alarms : AlarmsConfig
deriving DecidableEq, Repr

/-- `LambdaFunctionConfig` from `src/shared/types.ts`. -/
structure LambdaFunctionConfig where
  memory : Nat
  timeout : Nat
  reservedConcurrency : Nat
  provisionedConcurrency : Nat
  autoScaling : AutoScalingConfig
  codeDeploy : CodeDeployConfig
deriving DecidableEq, Repr

/-! ## `getDeploymentConfig` (from `lib/constructs/lambda-function.ts`) -/

/-- The nine `codedeploy.LambdaDeploymentConfig` constants used by
`getDeploymentConfig` in `lib/constructs/lambda-function.ts`. -/
inductive LambdaDeploymentConfig where
  | LINEAR_10PERCENT_EVERY_1MINUTE
  | LINEAR_10PERCENT_EVERY_2MINUTES
  | LINEAR_10PERCENT_EVERY_3MINUTES
  | LINEAR_10PERCENT_EVERY_10MINUTES
  | CANARY_10PERCENT_5MINUTES
  | CANARY_10PERCENT_10MINUTES
  | CANARY_10PERCENT_15MINUTES
  | CANARY_10PERCENT_30MINUTES
  | ALL_AT_ONCE
deriving DecidableEq, Repr

/-- The `configs` record literal inside `getDeploymentConfig`
(`lib/constructs/lambda-function.ts`): a string-keyed lookup of the
recognized deployment preferences. -/
def deploymentConfigs (preference : String) : Option LambdaDeploymentConfig :=
  if preference = "LINEAR_10PERCENT_EVERY_1MINUTE" then some .LINEAR_10PERCENT_EVERY_1MINUTE
  else if preference = "LINEAR_10PERCENT_EVERY_2MINUTES" then some .LINEAR_10PERCENT_EVERY_2MINUTES
  else if preference = "LINEAR_10PERCENT_EVERY_3MINUTES" then some .LINEAR_10PERCENT_EVERY_3MINUTES
  else if preference = "LINEAR_10PERCENT_EVERY_10MINUTES" then some .LINEAR_10PERCENT_EVERY_10MINUTES
  else if preference = "CANARY_10PERCENT_5MINUTES" then some .CANARY_10PERCENT_5MINUTES
  else if preference = "CANARY_10PERCENT_10MINUTES" then some .CANARY_10PERCENT_10MINUTES
  else if preference = "CANARY_10PERCENT_15MINUTES" then some .CANARY_10PERCENT_15MINUTES
  else if preference = "CANARY_10PERCENT_30MINUTES" then some .CANARY_10PERCENT_30MINUTES
  else if preference = "ALL_AT_ONCE" then some .ALL_AT_ONCE
  else none

/-- `getDeploymentConfig` from `lib/constructs/lambda-function.ts`:
`return configs[preference] || LambdaDeploymentConfig.LINEAR_10PERCENT_EVERY_1MINUTE`.
An unrecognized preference silently falls back to the default. -/
def getDeploymentConfig (preference : String) : LambdaDeploymentConfig :=
  (deploymentConfigs preference).getD .LINEAR_10PERCENT_EVERY_1MINUTE

/-! ## `StandardLambdaFunction` constructor wiring
(from `lib/constructs/lambda-function.ts`) -/

/-- Which resources the `StandardLambdaFunction` constructor creates, and
how the deployment group is parameterized. Mirrors the constructor,
`setupAliasWithProvisioning` and `setupCodeDeploy` in
`lib/constructs/lambda-function.ts`. -/
structure CreatedResources where
  versionCreated : Bool
  aliasCreated : Bool
  autoScalingConfigured : Bool
  blueGreenTagsAdded : Bool
  errorAlarmCreated : Bool
  deploymentGroupCreated : Bool
  deploymentGroupAlarmCount : Nat
  deploymentInAlarm : Bool
deriving DecidableEq, Repr

/-- The `StandardLambdaFunction` constructor of
`lib/constructs/lambda-function.ts`, as a function from configuration to
the set of created resources:
* alias (with version) is created only when `provisionedConcurrency > 0`
  (`setupAliasWithProvisioning` is called only inside that guard);
* auto-scaling is configured when `autoScaling.enabled` and the
  provisioned count is positive (inside `setupAliasWithProvisioning`);
* Blue/Green tags are added when the feature flag is set and version and
  alias exist;
* `setupCodeDeploy` runs when `codeDeploy.enabled` and the alias exists;
  inside it the error alarm is created when `codeDeploy.alarms.enabled`,
  the alarm list passed to the deployment group holds that one alarm or
  is empty, and `autoRollback.deploymentInAlarm` equals
  `codeDeploy.alarms.enabled`. -/
def standardLambdaFunction (blueGreenEnabled : Bool) (cfg : LambdaFunctionConfig) :
    CreatedResources :=
  let provisioned := cfg.provisionedConcurrency
  let aliasCreated := decide (0 < provisioned)
  let versionCreated := aliasCreated
  let autoScalingConfigured := aliasCreated && cfg.autoScaling.enabled && decide (0 < provisioned)
  let blueGreenTagsAdded := blueGreenEnabled && versionCreated && aliasCreated
  let codeDeploySetup := cfg.codeDeploy.enabled && aliasCreated
  let errorAlarmCreated := codeDeploySetup && cfg.codeDeploy.alarms.enabled
  { versionCreated := versionCreated
    aliasCreated := aliasCreated
    autoScalingConfigured := autoScalingConfigured
    blueGreenTagsAdded := blueGreenTagsAdded
    errorAlarmCreated := errorAlarmCreated
    deploymentGroupCreated := codeDeploySetup
    deploymentGroupAlarmCount := if errorAlarmCreated then 1 else 0
    deploymentInAlarm := codeDeploySetup && cfg.codeDeploy.alarms.enabled }

/-! ## HealthEvaluator -/

/-- The per-window alarm verdict (`AlarmState` of the spec). -/
inductive AlarmState where
  | OK
  | BREACH
  | INSUFFICIENT_DATA
deriving DecidableEq, Repr

/-- The error-rate expression declared by `createErrorAlarm` in
`lib/constructs/lambda-function.ts`:
`(errors / MAX([errors, invocations])) * 100`. -/
def errorRatePercent (invocations errors : Nat) : ℚ :=
  ((errors : ℚ) / ((Nat.max errors invocations : Nat) : ℚ)) * 100

/-- Modelled from the spec: the CloudWatch alarm evaluation engine that
turns the declared metric into a per-window verdict is not part of the
repository; only its declaration is (`createErrorAlarm`). Per §4.3 of the
spec: `invocations == 0` gives `INSUFFICIENT_DATA`; otherwise the rate
`errors / max(errors, invocations)` is compared against the threshold
exactly as the declared alarm does (`GREATER_THAN_THRESHOLD` at
`errorRateThreshold * 100`, on the percentage expression). -/
def evaluate (threshold : ℚ) (invocations errors : Nat) : AlarmState :=
  if invocations = 0 then .INSUFFICIENT_DATA
  else if errorRatePercent invocations errors > threshold * 100 then .BREACH
  else .OK

/-- Modelled from the spec: a metric fetch may fail (`MetricUnavailable`,
represented by `none`), which §7 treats as `INSUFFICIENT_DATA`
(`treatMissingData: NOT_BREACHING` in `createErrorAlarm`). -/
def evaluateObs (threshold : ℚ) : Option (Nat × Nat) → AlarmState
  | none => .INSUFFICIENT_DATA
  | some (invocations, errors) => evaluate threshold invocations errors

/-! ## RolloutPlanner -/

/-- `RolloutStrategy` of the spec (§3): `LINEAR(stepPercent, stepInterval)`,
`CANARY(initialPercent, bakeDuration)`, `ALL_AT_ONCE`. Percentages are
whole percents, intervals and bake durations abstract time units. -/
inductive RolloutStrategy where
  | LINEAR (stepPercent : Nat) (stepInterval : Nat)
  | CANARY (initialPercent : Nat) (bakeDuration : Nat)
  | ALL_AT_ONCE
deriving DecidableEq, Repr

/-- `ConfigError` of the spec (§7): invalid strategy parameters. -/
inductive ConfigError where
  | invalidStepPercent
  | invalidInitialPercent
deriving DecidableEq, Repr

/-- Modelled from the spec: the RolloutPlanner (§4.1) has no counterpart
in the repository (CodeDeploy's fixed deployment configurations stand in
for it); `plan` follows the spec's words.
* `LINEAR(p, interval)`: steps `p, 2p, 3p, …` capped and closed at 100
  (the last step forced to exactly 100 even if arithmetic overshoots);
  `ConfigError` if `p ∉ (0,100]`.
* `CANARY(p, bake)`: two steps, `(p, bake)` then `(100, 0)`;
  `ConfigError` if `p ∉ (0,100)`.
* `ALL_AT_ONCE`: the single step `(100, 0)`.
Each step is a pair (percentage, interval); an interval of 0 means
"proceed immediately". -/
def plan : RolloutStrategy → Except ConfigError (List (Nat × Nat))
  | .LINEAR p interval =>
    if p = 0 ∨ 100 < p then .error .invalidStepPercent
    else .ok (((List.range (99 / p)).map (fun i => ((i + 1) * p, interval))) ++ [(100, interval)])
  | .CANARY p bake =>
    if p = 0 ∨ 100 ≤ p then .error .invalidInitialPercent
    else .ok [(p, bake), (100, 0)]
  | .ALL_AT_ONCE => .ok [(100, 0)]

/-! ## RollbackDecider -/

/-- Modelled from the spec: the RollbackDecider (§4.4) is realized by
CloudWatch's `evaluationPeriods` alarm engine, external to the
repository. One update of the consecutive-breach counter: incremented on
`BREACH`, reset to 0 on `OK` or `INSUFFICIENT_DATA`. -/
def bumpCounter (counter : Nat) : AlarmState → Nat
  | .BREACH => counter + 1
  | .OK => 0
  | .INSUFFICIENT_DATA => 0

/-- Modelled from the spec: the RollbackDecider run over a sequence of
window verdicts with required consecutive-breach count `k`, starting from
counter `counter` at position `idx`. It signals rollback (returning the
position) exactly when the counter reaches `k`; after a signal the
session is over, so the search stops. -/
def deciderRun (k : Nat) : Nat → Nat → List AlarmState → Option Nat
  | _, _, [] => none
  | counter, idx, v :: rest =>
    let counter' := bumpCounter counter v
    if counter' = k then some idx else deciderRun k counter' (idx + 1) rest

/-- Modelled from the spec: position (0-based) at which the
RollbackDecider signals rollback for a verdict sequence, if it ever
does; counter starts at 0. -/
def rollbackIndex (k : Nat) (verdicts : List AlarmState) : Option Nat :=
  deciderRun k 0 0 verdicts

/-- `k` consecutive `BREACH` verdicts end at position `i`: the window
`i - k + 1 … i` exists and holds only `BREACH`. Decidable reference
predicate for the decider's signalling condition. -/
def breachWindow (verdicts : List AlarmState) (i k : Nat) : Prop :=
  k ≤ i + 1 ∧ ∀ d < k, verdicts[i - d]? = some .BREACH

instance (verdicts : List AlarmState) (i k : Nat) :
    Decidable (breachWindow verdicts i k) := by
  unfold breachWindow; infer_instance

/-! ## DeploymentOrchestrator -/

/-- Session states of the spec's orchestrator state machine (§4.2). -/
inductive SessionState where
  | INITIALIZING
  | SHIFTING
  | MONITORING
  | SUCCEEDED
  | ROLLING_BACK
  | ROLLED_BACK
  | FAILED
deriving DecidableEq, Repr

/-- A traffic split instruction sent to the TrafficRouter. -/
structure Split where
  stable : Nat
  candidate : Nat
deriving DecidableEq, Repr

/-- A history record of a DeploymentSession: one per monitored step, and
a rollback record when the session rolls back. -/
inductive HistoryRecord where
  | step (stepIndex : Nat) (percentage : Nat) (verdict : AlarmState)
  | rollback (stepIndex : Nat)
deriving DecidableEq, Repr

/-- One window event observed while a step is monitored: either the
metric fetch outcome (`none` = `MetricUnavailable`) or a `cancel`
request. -/
inductive WindowEvent where
  | metrics (counts : Option (Nat × Nat))
  | cancel
deriving DecidableEq, Repr

/-- Outcome of one orchestrator run: terminal state, the ordered list of
split instructions issued to the TrafficRouter, and the session
history. -/
structure RunResult where
  finalState : SessionState
  splits : List Split
  history : List HistoryRecord
deriving DecidableEq, Repr

/-- Modelled from the spec: the DeploymentOrchestrator loop (§4.2) is
realized by CodeDeploy's managed traffic shifting, external to the
repository; only its declaration (`setupCodeDeploy`) is in the code.
For each planned step percentage `p` the orchestrator issues
`setSplit {stable := 100 - p, candidate := p}`, waits out the window and
handles its event: a `cancel` forces the rollback path; otherwise, when
the alarm is enabled, the window verdict is computed (`evaluateObs`) and
fed to the RollbackDecider (`bumpCounter`), and when the counter reaches
`k` the rollback path runs (`setSplit {stable := 100, candidate := 0}`,
a rollback record, terminal `ROLLED_BACK`); `OK` and
`INSUFFICIENT_DATA` advance to the next step. When the alarm is
disabled, the rollout advances on the timer alone. Exhausting all steps
ends in `SUCCEEDED`. The TrafficRouter is taken as succeeding (router
failure leads to `FAILED`, a path that carries no traffic decision). -/
def runSteps (alarmEnabled : Bool) (threshold : ℚ) (k : Nat) :
    Nat → Nat → List Nat → List WindowEvent → RunResult
  | _, _, [], _ => { finalState := .SUCCEEDED, splits := [], history := [] }
  | idx, counter, p :: rest, events =>
    let split : Split := { stable := 100 - p, candidate := p }
    match events.headD (.metrics none) with
    | .cancel =>
      { finalState := .ROLLED_BACK
        splits := [split, { stable := 100, candidate := 0 }]
        history := [.rollback idx] }
    | .metrics counts =>
      if alarmEnabled then
        let verdict := evaluateObs threshold counts
        let counter' := bumpCounter counter verdict
        if counter' = k then
          { finalState := .ROLLED_BACK
            splits := [split, { stable := 100, candidate := 0 }]
            history := [.step idx p verdict, .rollback idx] }
        else
          let r := runSteps alarmEnabled threshold k (idx + 1) counter' rest events.tail
          { finalState := r.finalState
            splits := split :: r.splits
            history := .step idx p verdict :: r.history }
      else
        let r := runSteps alarmEnabled threshold k (idx + 1) counter rest events.tail
        { finalState := r.finalState
          splits := split :: r.splits
          history := r.history }

/-- Errors `startRollout` can reject a request with (§7). -/
inductive OrchestratorError where
  | ConcurrentDeploymentError
  | ConfigError
deriving DecidableEq, Repr

/-- A stored DeploymentSession record, keyed by its target. -/
structure SessionRec where
  target : String
  candidateVersion : Nat
  steps : List (Nat × Nat)
  state : SessionState
deriving DecidableEq, Repr

/-- Terminal session states (§4.2): `SUCCEEDED`, `ROLLED_BACK`,
`FAILED`. -/
def isTerminal : SessionState → Bool
  | .SUCCEEDED => true
  | .ROLLED_BACK => true
  | .FAILED => true
  | _ => false

/-- A target has an active (non-terminal) session in the store. -/
def hasActiveSession (store : List SessionRec) (target : String) : Bool :=
  store.any fun s => s.target == target && !isTerminal s.state

/-- Number of active sessions a target owns in the store. -/
def activeCount (store : List SessionRec) (target : String) : Nat :=
  store.countP fun s => s.target == target && !isTerminal s.state

/-- Modelled from the spec: `startRollout` (§4.2) has no counterpart in
the repository (CodeDeploy serializes deployments per deployment group).
It fails with `ConcurrentDeploymentError` when the target already has a
non-terminal session, fails with `ConfigError` when the planner rejects
the strategy — in both cases the store is returned unchanged and no
traffic is touched — and otherwise creates the session in state
`SHIFTING`. -/
def startRollout (store : List SessionRec) (target : String) (candidate : Nat)
    (strategy : RolloutStrategy) : List SessionRec × Option OrchestratorError :=
  if hasActiveSession store target then (store, some .ConcurrentDeploymentError)
  else
    match plan strategy with
    | .error _ => (store, some .ConfigError)
    | .ok steps =>
      ({ target := target, candidateVersion := candidate, steps := steps,
         state := .SHIFTING } :: store, none)

/-! ## CapacityAutoscaler -/

/-- `WarmPool` of the spec (§3): per-target
`{current, min, max, utilizationTarget}`. -/
structure WarmPool where
  current : Nat
  min : Nat
  max : Nat
  utilizationTarget : ℚ
deriving DecidableEq, Repr

/-- Clamp a capacity value to `[lo, hi]`. -/
def clampCap (lo hi v : Nat) : Nat := Nat.min hi (Nat.max lo v)

/-- Modelled from the spec: the proportional step of the
CapacityAutoscaler (§4.5), realized externally by application
auto-scaling's target tracking (`scaleOnUtilization` in
`setupAliasWithProvisioning` only declares it): the capacity needed to
bring utilization back to target, `⌈current · observed / target⌉`. -/
def desiredCapacity (current : Nat) (target observed : ℚ) : Nat :=
  (⌈(current : ℚ) * observed / target⌉).toNat

/-- Modelled from the spec: `CapacityAutoscaler.adjust` (§4.5) with
hysteresis half-width `hyst`. Above the band, `current` increases by the
proportional step; below the band it decreases by the proportional step;
within the band nothing changes. The result is clamped to
`[min, max]`. -/
def adjust (hyst : ℚ) (pool : WarmPool) (observed : ℚ) : WarmPool :=
  if observed > pool.utilizationTarget + hyst then
    { pool with current :=
        clampCap pool.min pool.max (desiredCapacity pool.current pool.utilizationTarget observed) }
  else if observed < pool.utilizationTarget - hyst then
    { pool with current :=
        clampCap pool.min pool.max (desiredCapacity pool.current pool.utilizationTarget observed) }
  else pool

/-! ## Shared lemmas -/

/-- A target with no active session has active-session count zero. -/
theorem activeCount_eq_zero (store : List SessionRec) (t : String)
    (h : hasActiveSession store t = false) : activeCount store t = 0 := by
  rw [activeCount, List.countP_eq_zero]
  intro s hs
  rw [hasActiveSession, List.any_eq_false] at h
  exact h s hs

/-- With the alarm disabled the orchestrator walks every planned step and
succeeds, provided no cancel request arrives. -/
theorem runSteps_alarmOff (th : ℚ) (k : Nat) (steps : List Nat) :
    ∀ (idx counter : Nat) (events : List WindowEvent), WindowEvent.cancel ∉ events →
      runSteps false th k idx counter steps events =
        { finalState := .SUCCEEDED,
          splits := steps.map fun p => { stable := 100 - p, candidate := p },
          history := [] } := by
  induction steps with
  | nil => intro idx counter events h; rfl
  | cons p rest ih =>
    intro idx counter events h
    have htail : WindowEvent.cancel ∉ events.tail := by
      intro hm
      exact h (List.mem_of_mem_tail hm)
    cases events with
    | nil =>
      rw [runSteps]
      simp only [List.headD_nil, List.tail_nil]
      rw [ih (idx + 1) counter [] htail]
      simp
    | cons e es =>
      have he : e ≠ .cancel := by
        intro heq
        exact h (heq ▸ List.mem_cons_self e es)
      cases e with
      | cancel => exact absurd rfl he
      | metrics m =>
        rw [runSteps]
        simp only [List.headD_cons, List.tail_cons]
        rw [ih (idx + 1) counter es htail]
        simp

/-! ## Claim theorems -/

/-- C1: for every window with `invocations > 0`, the HealthEvaluator
verdict is `BREACH` exactly when `errors / max(errors, invocations)`
exceeds the threshold, and `OK` otherwise; the denominator is
`max(errors, invocations)`, as declared by `createErrorAlarm`. -/
theorem healthEvaluator_breach_iff (threshold : ℚ) (invocations errors : Nat)
    (h : 0 < invocations) :
    (evaluate threshold invocations errors = .BREACH ↔
      (errors : ℚ) / ((Nat.max errors invocations : Nat) : ℚ) > threshold) ∧
    (evaluate threshold invocations errors = .OK ↔
      ¬ ((errors : ℚ) / ((Nat.max errors invocations : Nat) : ℚ) > threshold)) := by
  have hne : invocations ≠ 0 := Nat.pos_iff_ne_zero.mp h
  have h100 : (0 : ℚ) < 100 := by norm_num
  have key : threshold * 100 < errorRatePercent invocations errors ↔
      threshold < (errors : ℚ) / ((Nat.max errors invocations : Nat) : ℚ) := by
    unfold errorRatePercent
    exact mul_lt_mul_right h100
  have heval : evaluate threshold invocations errors =
      (if errorRatePercent invocations errors > threshold * 100 then .BREACH else .OK) := by
    rw [evaluate, if_neg hne]
  by_cases hgt : errorRatePercent invocations errors > threshold * 100
  · rw [heval, if_pos hgt]
    refine ⟨⟨fun _ => key.mp hgt, fun _ => rfl⟩, ⟨?_, ?_⟩⟩
    · intro hc; cases hc
    · intro hn; exact absurd (key.mp hgt) hn
  · rw [heval, if_neg hgt]
    refine ⟨⟨?_, ?_⟩, ⟨?_, fun _ => rfl⟩⟩
    · intro hc; cases hc
    · intro hrate; exact absurd (key.mpr hrate) hgt
    · intro _ hrate; exact absurd (key.mpr hrate) hgt

/-- Witness for C1: ten invocations, one error, five-percent threshold
give a ten-percent rate and a `BREACH` verdict. -/
theorem healthEvaluator_breach_iff_witness :
    (evaluate (1/20) 10 1 = .BREACH ↔
      ((1 : Nat) : ℚ) / ((Nat.max 1 10 : Nat) : ℚ) > 1/20) ∧
    (evaluate (1/20) 10 1 = .OK ↔
      ¬ (((1 : Nat) : ℚ) / ((Nat.max 1 10 : Nat) : ℚ) > 1/20)) :=
  healthEvaluator_breach_iff (1/20) 10 1 (by decide)

/-- C10: with `provisionedConcurrency = 0` the constructor creates no
alias, hence no deployment group, no error alarm and no auto-scaling,
whatever the feature flags say; the deployment group exists only with
positive provisioned concurrency. -/
theorem standardLambdaFunction_zero_provisioning (blueGreenEnabled : Bool)
    (cfg : LambdaFunctionConfig) (h : cfg.provisionedConcurrency = 0) :
    (standardLambdaFunction blueGreenEnabled cfg).aliasCreated = false ∧
    (standardLambdaFunction blueGreenEnabled cfg).deploymentGroupCreated = false ∧
    (standardLambdaFunction blueGreenEnabled cfg).errorAlarmCreated = false ∧
    (standardLambdaFunction blueGreenEnabled cfg).autoScalingConfigured = false ∧
    ((standardLambdaFunction blueGreenEnabled cfg).deploymentGroupCreated = true →
      0 < cfg.provisionedConcurrency) := by
  simp [standardLambdaFunction, h]

/-- Every feature enabled but zero provisioned concurrency: the
configuration instantiating the C10 witness. -/
def zeroProvisioningConfig : LambdaFunctionConfig :=
  { memory := 512
    timeout := 30
    reservedConcurrency := 0
    provisionedConcurrency := 0
    autoScaling :=
      { enabled := true, minCapacity := 1, maxCapacity := 10, utilizationTarget := 7/10 }
    codeDeploy :=
      { enabled := true
        deploymentPreference := "LINEAR_10PERCENT_EVERY_1MINUTE"
        alarms := { enabled := true, errorRateThreshold := 1/20, evaluationPeriods := 2 } } }

/-- Witness for C10 on `zeroProvisioningConfig`, which enables CodeDeploy,
alarms and auto-scaling yet keeps `provisionedConcurrency = 0`. -/
theorem standardLambdaFunction_zero_provisioning_witness :
    (standardLambdaFunction true zeroProvisioningConfig).aliasCreated = false ∧
    (standardLambdaFunction true zeroProvisioningConfig).deploymentGroupCreated = false ∧
    (standardLambdaFunction true zeroProvisioningConfig).errorAlarmCreated = false ∧
    (standardLambdaFunction true zeroProvisioningConfig).autoScalingConfigured = false ∧
    ((standardLambdaFunction true zeroProvisioningConfig).deploymentGroupCreated = true →
      0 < zeroProvisioningConfig.provisionedConcurrency) :=
  standardLambdaFunction_zero_provisioning true zeroProvisioningConfig rfl

/-- C3 counterexample: `"BLUE_GREEN_EVERYTHING"` is outside the
recognized strategy set, yet `getDeploymentConfig` does not fail — it
silently substitutes the default `LINEAR_10PERCENT_EVERY_1MINUTE`
schedule (`configs[preference] || LINEAR_10PERCENT_EVERY_1MINUTE`). -/
theorem getDeploymentConfig_substitutes_default :
    deploymentConfigs "BLUE_GREEN_EVERYTHING" = none ∧
    getDeploymentConfig "BLUE_GREEN_EVERYTHING" = .LINEAR_10PERCENT_EVERY_1MINUTE := by
  exact ⟨by decide, by decide⟩

/-- C3 (amended): invalid LINEAR or CANARY parameters make the planner
fail with `ConfigError`, and `startRollout` then rejects the request with
the session store untouched (no traffic is touched); an unrecognized
strategy name, however, does not fail — `getDeploymentConfig` substitutes
the default `LINEAR_10PERCENT_EVERY_1MINUTE` configuration. -/
theorem invalid_parameters_rejected (store : List SessionRec) (target : String)
    (candidate : Nat) (strategy : RolloutStrategy)
    (hfree : hasActiveSession store target = false) :
    (∀ p i, strategy = .LINEAR p i → p = 0 ∨ 100 < p →
      plan strategy = .error .invalidStepPercent ∧
      startRollout store target candidate strategy = (store, some .ConfigError)) ∧
    (∀ p b, strategy = .CANARY p b → p = 0 ∨ 100 ≤ p →
      plan strategy = .error .invalidInitialPercent ∧
      startRollout store target candidate strategy = (store, some .ConfigError)) ∧
    (∀ e, plan strategy = .error e →
      startRollout store target candidate strategy = (store, some .ConfigError)) ∧
    (∀ s, deploymentConfigs s = none →
      getDeploymentConfig s = .LINEAR_10PERCENT_EVERY_1MINUTE) := by
  have hreject : ∀ e, plan strategy = .error e →
      startRollout store target candidate strategy = (store, some .ConfigError) := by
    intro e hp
    rw [startRollout, if_neg (by rw [hfree]; exact Bool.false_ne_true), hp]
  refine ⟨?_, ?_, hreject, ?_⟩
  · intro p i hs hp
    subst hs
    have hplan : plan (.LINEAR p i) = .error .invalidStepPercent := by
      rw [plan, if_pos hp]
    exact ⟨hplan, hreject _ hplan⟩
  · intro p b hs hp
    subst hs
    have hplan : plan (.CANARY p b) = .error .invalidInitialPercent := by
      rw [plan, if_pos hp]
    exact ⟨hplan, hreject _ hplan⟩
  · intro s hs
    rw [getDeploymentConfig, hs]
    rfl

/-- Witness for C3 (amended) on the empty store and the strategy
`LINEAR 0`: zero step percent is rejected. -/
theorem invalid_parameters_rejected_witness :
    (∀ p i, RolloutStrategy.LINEAR 0 1 = .LINEAR p i → p = 0 ∨ 100 < p →
      plan (.LINEAR 0 1) = .error .invalidStepPercent ∧
      startRollout [] "api" 2 (.LINEAR 0 1) = ([], some .ConfigError)) ∧
    (∀ p b, RolloutStrategy.LINEAR 0 1 = .CANARY p b → p = 0 ∨ 100 ≤ p →
      plan (.LINEAR 0 1) = .error .invalidInitialPercent ∧
      startRollout [] "api" 2 (.LINEAR 0 1) = ([], some .ConfigError)) ∧
    (∀ e, plan (.LINEAR 0 1) = .error e →
      startRollout [] "api" 2 (.LINEAR 0 1) = ([], some .ConfigError)) ∧
    (∀ s, deploymentConfigs s = none →
      getDeploymentConfig s = .LINEAR_10PERCENT_EVERY_1MINUTE) :=
  invalid_parameters_rejected [] "api" 2 (.LINEAR 0 1) rfl

/-- C8: with `alarm.enabled = false` the error alarm is never created —
the deployment group gets an empty alarm list and
`autoRollback.deploymentInAlarm = false` — and the modelled orchestrator
bypasses HealthEvaluator and RollbackDecider entirely: absent a cancel
request, the rollout walks every planned step on the timer alone and
succeeds, whatever the window metrics are. -/
theorem alarm_disabled_bypasses_rollback (blueGreenEnabled : Bool)
    (cfg : LambdaFunctionConfig) (h : cfg.codeDeploy.alarms.enabled = false) :
    (standardLambdaFunction blueGreenEnabled cfg).errorAlarmCreated = false ∧
    (standardLambdaFunction blueGreenEnabled cfg).deploymentGroupAlarmCount = 0 ∧
    (standardLambdaFunction blueGreenEnabled cfg).deploymentInAlarm = false ∧
    ∀ (th : ℚ) (k idx counter : Nat) (steps : List Nat) (events : List WindowEvent),
      WindowEvent.cancel ∉ events →
      (runSteps false th k idx counter steps events).finalState = .SUCCEEDED ∧
      (runSteps false th k idx counter steps events).splits =
        steps.map fun p => { stable := 100 - p, candidate := p } := by
  refine ⟨by simp [standardLambdaFunction, h], by simp [standardLambdaFunction, h],
    by simp [standardLambdaFunction, h], ?_⟩
  intro th k idx counter steps events hc
  rw [runSteps_alarmOff th k steps idx counter events hc]
  exact ⟨rfl, rfl⟩

/-- Witness for C8 on a configuration with CodeDeploy enabled but alarms
disabled. -/
theorem alarm_disabled_bypasses_rollback_witness :
    (standardLambdaFunction true
      { zeroProvisioningConfig with
        provisionedConcurrency := 5
        codeDeploy :=
          { enabled := true
            deploymentPreference := "CANARY_10PERCENT_5MINUTES"
            alarms :=
              { enabled := false, errorRateThreshold := 1/20,
                evaluationPeriods := 2 } } }).errorAlarmCreated = false ∧
    (standardLambdaFunction true
      { zeroProvisioningConfig with
        provisionedConcurrency := 5
        codeDeploy :=
          { enabled := true
            deploymentPreference := "CANARY_10PERCENT_5MINUTES"
            alarms :=
              { enabled := false, errorRateThreshold := 1/20,
                evaluationPeriods := 2 } } }).deploymentGroupAlarmCount = 0 ∧
    (standardLambdaFunction true
      { zeroProvisioningConfig with
        provisionedConcurrency := 5
        codeDeploy :=
          { enabled := true
            deploymentPreference := "CANARY_10PERCENT_5MINUTES"
            alarms :=
              { enabled := false, errorRateThreshold := 1/20,
                evaluationPeriods := 2 } } }).deploymentInAlarm = false ∧
    ∀ (th : ℚ) (k idx counter : Nat) (steps : List Nat) (events : List WindowEvent),
      WindowEvent.cancel ∉ events →
      (runSteps false th k idx counter steps events).finalState = .SUCCEEDED ∧
      (runSteps false th k idx counter steps events).splits =
        steps.map fun p => { stable := 100 - p, candidate := p } :=
  alarm_disabled_bypasses_rollback true _ rfl

/-- C7: `startRollout` on a target with an active session fails with
`ConcurrentDeploymentError` and returns the store unchanged (every
existing session, in particular the active one, keeps its state), and
the at-most-one-active-session-per-target invariant is preserved by any
`startRollout` call. -/
theorem startRollout_mutual_exclusion (store : List SessionRec) (target : String)
    (candidate : Nat) (strategy : RolloutStrategy) :
    (hasActiveSession store target = true →
      startRollout store target candidate strategy =
        (store, some .ConcurrentDeploymentError)) ∧
    (∀ u, activeCount store u ≤ 1 →
      activeCount (startRollout store target candidate strategy).1 u ≤ 1) := by
  constructor
  · intro h
    rw [startRollout, if_pos h]
  · intro u hu
    by_cases h : hasActiveSession store target
    · rw [startRollout, if_pos h]
      exact hu
    · have hfalse : hasActiveSession store target = false := by
        simpa using h
      cases hp : plan strategy with
      | error e =>
        rw [startRollout, if_neg h, hp]
        exact hu
      | ok steps =>
        rw [startRollout, if_neg h, hp]
        rw [activeCount, List.countP_cons]
        by_cases hut : u = target
        · subst hut
          have hzero : activeCount store u = 0 := activeCount_eq_zero store u hfalse
          rw [activeCount] at hzero
          rw [hzero]
          simp [isTerminal]
        · have hne : target ≠ u := fun he => hut he.symm
          simp [isTerminal, hne]
          exact hu

/-- A clamped capacity lies within its bounds. -/
theorem clampCap_mem (lo hi v : Nat) (h : lo ≤ hi) :
    lo ≤ clampCap lo hi v ∧ clampCap lo hi v ≤ hi := by
  refine ⟨?_, Nat.min_le_left hi _⟩
  rw [clampCap]
  exact Nat.le_min.mpr ⟨h, Nat.le_max_left lo v⟩

/-- A store whose only session is active on target `"api"`:
instantiates the C7 witness. -/
def busyStore : List SessionRec :=
  [{ target := "api", candidateVersion := 1, steps := [(100, 0)], state := .SHIFTING }]

/-- Witness for C7 on `busyStore`, whose `"api"` target has an active
session. -/
theorem startRollout_mutual_exclusion_witness :
    (hasActiveSession busyStore "api" = true →
      startRollout busyStore "api" 2 .ALL_AT_ONCE =
        (busyStore, some .ConcurrentDeploymentError)) ∧
    (∀ u, activeCount busyStore u ≤ 1 →
      activeCount (startRollout busyStore "api" 2 .ALL_AT_ONCE).1 u ≤ 1) :=
  startRollout_mutual_exclusion busyStore "api" 2 .ALL_AT_ONCE

/-- The warm pool of the spec's CapacityAutoscaler scenario:
`{min: 1, max: 10, utilizationTarget: 0.7, current: 2}`. -/
def scenarioPool : WarmPool :=
  { current := 2, min := 1, max := 10, utilizationTarget := 7/10 }

/-- C9: `adjust` keeps `current` within `[min, max]` (whatever the
observed utilization and hysteresis), and in the spec's scenario — pool
`{min: 1, max: 10, target: 0.7, current: 2}`, observed utilization
0.95 — `current` increases (to 3) and stays at most 10. -/
theorem autoscaler_clamped (hyst observed : ℚ) (pool : WarmPool)
    (hmin : pool.min ≤ pool.current) (hmax : pool.current ≤ pool.max) :
    (pool.min ≤ (adjust hyst pool observed).current ∧
      (adjust hyst pool observed).current ≤ pool.max) ∧
    (scenarioPool.current < (adjust (1/20) scenarioPool (19/20)).current ∧
      (adjust (1/20) scenarioPool (19/20)).current ≤ 10) := by
  constructor
  · have hlohi : pool.min ≤ pool.max := le_trans hmin hmax
    unfold adjust
    split_ifs
    · exact clampCap_mem pool.min pool.max _ hlohi
    · exact clampCap_mem pool.min pool.max _ hlohi
    · exact ⟨hmin, hmax⟩
  · have hdes : desiredCapacity scenarioPool.current scenarioPool.utilizationTarget (19/20)
        = 3 := by
      show (⌈((2:Nat) : ℚ) * (19/20) / (7/10)⌉).toNat = 3
      have h : (((2:Nat) : ℚ) * (19/20) / (7/10)) = 19/7 := by norm_num
      rw [h]
      have h2 : (⌈(19/7 : ℚ)⌉ : ℤ) = 3 := by
        rw [Int.ceil_eq_iff]
        constructor <;> norm_num
      rw [h2]
      rfl
    have hbranch : adjust (1/20) scenarioPool (19/20) =
        { scenarioPool with current := clampCap 1 10 3 } := by
      rw [adjust, if_pos (by norm_num [scenarioPool])]
      rw [show scenarioPool.min = 1 from rfl, show scenarioPool.max = 10 from rfl, hdes]
      rfl
    rw [hbranch]
    constructor <;> decide

/-- Witness for C9 on the scenario pool itself (current 2 lies within
`[1, 10]`), with observed utilization 0.95 and hysteresis 0.05. -/
theorem autoscaler_clamped_witness :
    (scenarioPool.min ≤ (adjust (1/20) scenarioPool (19/20)).current ∧
      (adjust (1/20) scenarioPool (19/20)).current ≤ scenarioPool.max) ∧
    (scenarioPool.current < (adjust (1/20) scenarioPool (19/20)).current ∧
      (adjust (1/20) scenarioPool (19/20)).current ≤ 10) :=
  autoscaler_clamped (1/20) (19/20) scenarioPool (by decide) (by decide)

/-- Case analysis of one orchestrator step: a step either rolls back
(cancel, or confirmed breach — recording the verdict), or advances to
the rest of the schedule (with the updated decider counter when the
alarm is enabled, untouched otherwise). -/
theorem runSteps_cons_shape (a : Bool) (th : ℚ) (k idx counter p : Nat) (rest : List Nat)
    (events : List WindowEvent) :
    (runSteps a th k idx counter (p :: rest) events =
      { finalState := .ROLLED_BACK,
        splits := [{ stable := 100 - p, candidate := p }, { stable := 100, candidate := 0 }],
        history := [.rollback idx] }) ∨
    (∃ v, runSteps a th k idx counter (p :: rest) events =
      { finalState := .ROLLED_BACK,
        splits := [{ stable := 100 - p, candidate := p }, { stable := 100, candidate := 0 }],
        history := [.step idx p v, .rollback idx] }) ∨
    (∃ c v, runSteps a th k idx counter (p :: rest) events =
      { finalState := (runSteps a th k (idx + 1) c rest events.tail).finalState,
        splits := { stable := 100 - p, candidate := p } ::
          (runSteps a th k (idx + 1) c rest events.tail).splits,
        history := .step idx p v ::
          (runSteps a th k (idx + 1) c rest events.tail).history }) ∨
    (runSteps a th k idx counter (p :: rest) events =
      { finalState := (runSteps a th k (idx + 1) counter rest events.tail).finalState,
        splits := { stable := 100 - p, candidate := p } ::
          (runSteps a th k (idx + 1) counter rest events.tail).splits,
        history := (runSteps a th k (idx + 1) counter rest events.tail).history }) := by
  rw [runSteps]
  cases events with
  | nil =>
    simp only [List.headD_nil, List.tail_nil]
    cases a with
    | false => right; right; right; rfl
    | true =>
      by_cases hc : bumpCounter counter (evaluateObs th none) = k
      · right; left
        exact ⟨evaluateObs th none, by simp [hc]⟩
      · right; right; left
        exact ⟨bumpCounter counter (evaluateObs th none), evaluateObs th none,
          by simp [hc]⟩
  | cons e es =>
    cases e with
    | cancel => left; rfl
    | metrics m =>
      simp only [List.headD_cons, List.tail_cons]
      cases a with
      | false => right; right; right; rfl
      | true =>
        by_cases hc : bumpCounter counter (evaluateObs th m) = k
        · right; left
          exact ⟨evaluateObs th m, by simp [hc]⟩
        · right; right; left
          exact ⟨bumpCounter counter (evaluateObs th m), evaluateObs th m,
            by simp [hc]⟩

/-- C5: whenever the orchestrator session rolls back (confirmed breach
or cancel, i.e. it ends `ROLLED_BACK`), the last split instruction sent
to the TrafficRouter is exactly `{stable := 100, candidate := 0}` and
the session history ends with a rollback record; conversely, any run
whose history holds a rollback record ended in state `ROLLED_BACK`. -/
theorem orchestrator_rollback_restores_stable (a : Bool) (th : ℚ) (k : Nat)
    (steps : List Nat) (idx counter : Nat) (events : List WindowEvent) :
    ((runSteps a th k idx counter steps events).finalState = .ROLLED_BACK →
      (runSteps a th k idx counter steps events).splits.getLast? =
        some { stable := 100, candidate := 0 } ∧
      ∃ i, (runSteps a th k idx counter steps events).history.getLast? =
        some (.rollback i)) ∧
    ((∃ i, HistoryRecord.rollback i ∈
        (runSteps a th k idx counter steps events).history) →
      (runSteps a th k idx counter steps events).finalState = .ROLLED_BACK) := by
  induction steps generalizing idx counter events with
  | nil =>
    constructor
    · intro h
      rw [runSteps] at h
      exact absurd h (by decide)
    · rintro ⟨i, hi⟩
      rw [runSteps] at hi
      exact absurd hi (List.not_mem_nil _)
  | cons p rest ih =>
    rcases runSteps_cons_shape a th k idx counter p rest events with
      h | ⟨v, h⟩ | ⟨c, v, h⟩ | h
    · rw [h]
      exact ⟨fun _ => ⟨rfl, idx, rfl⟩, fun _ => rfl⟩
    · rw [h]
      exact ⟨fun _ => ⟨rfl, idx, rfl⟩, fun _ => rfl⟩
    · rw [h]
      constructor
      · intro hf
        obtain ⟨h1, i, h2⟩ := (ih (idx + 1) c events.tail).1 hf
        constructor
        · cases hs : (runSteps a th k (idx + 1) c rest events.tail).splits with
          | nil => rw [hs] at h1; exact absurd h1 (by simp)
          | cons q qs =>
            rw [hs] at h1
            show (_ :: q :: qs).getLast? = _
            rw [List.getLast?_cons_cons]
            exact h1
        · refine ⟨i, ?_⟩
          cases hh : (runSteps a th k (idx + 1) c rest events.tail).history with
          | nil => rw [hh] at h2; exact absurd h2 (by simp)
          | cons q qs =>
            rw [hh] at h2
            show (_ :: q :: qs).getLast? = _
            rw [List.getLast?_cons_cons]
            exact h2
      · rintro ⟨i, hi⟩
        rcases List.mem_cons.mp hi with heq | hmem
        · exact absurd heq (by simp)
        · exact (ih (idx + 1) c events.tail).2 ⟨i, hmem⟩
    · rw [h]
      constructor
      · intro hf
        obtain ⟨h1, i, h2⟩ := (ih (idx + 1) counter events.tail).1 hf
        constructor
        · cases hs : (runSteps a th k (idx + 1) counter rest events.tail).splits with
          | nil => rw [hs] at h1; exact absurd h1 (by simp)
          | cons q qs =>
            rw [hs] at h1
            show (_ :: q :: qs).getLast? = _
            rw [List.getLast?_cons_cons]
            exact h1
        · exact ⟨i, h2⟩
      · rintro ⟨i, hi⟩
        exact (ih (idx + 1) counter events.tail).2 ⟨i, hi⟩

/-- Two windows of ten invocations with one error each (a ten-percent
error rate): instantiates the C5 witness. -/
def breachEvents : List WindowEvent :=
  [.metrics (some (10, 1)), .metrics (some (10, 1))]

/-- Witness for C5: threshold five percent, two evaluation periods,
schedule 10/30/100 with two breaching windows. -/
theorem orchestrator_rollback_restores_stable_witness :
    ((runSteps true (1/20) 2 0 0 [10, 30, 100] breachEvents).finalState = .ROLLED_BACK →
      (runSteps true (1/20) 2 0 0 [10, 30, 100] breachEvents).splits.getLast? =
        some { stable := 100, candidate := 0 } ∧
      ∃ i, (runSteps true (1/20) 2 0 0 [10, 30, 100] breachEvents).history.getLast? =
        some (.rollback i)) ∧
    ((∃ i, HistoryRecord.rollback i ∈
        (runSteps true (1/20) 2 0 0 [10, 30, 100] breachEvents).history) →
      (runSteps true (1/20) 2 0 0 [10, 30, 100] breachEvents).finalState = .ROLLED_BACK) :=
  orchestrator_rollback_restores_stable true (1/20) 2 [10, 30, 100] 0 0 breachEvents

/-- C6: a window with zero invocations yields `INSUFFICIENT_DATA`; a
failed metric fetch (`MetricUnavailable`, i.e. `none`) yields
`INSUFFICIENT_DATA`; and the orchestrator treats such a verdict exactly
like `OK` — the breach counter resets just as for `OK` and the rollout
advances to the next step instead of stalling or rolling back. -/
theorem insufficient_data_advances (th : ℚ) (k idx counter p errors : Nat)
    (rest : List Nat) (events : List WindowEvent) (counts : Option (Nat × Nat))
    (hk : 1 ≤ k) :
    evaluateObs th none = .INSUFFICIENT_DATA ∧
    evaluate th 0 errors = .INSUFFICIENT_DATA ∧
    bumpCounter counter .INSUFFICIENT_DATA = bumpCounter counter .OK ∧
    (evaluateObs th counts = .INSUFFICIENT_DATA →
      runSteps true th k idx counter (p :: rest) (.metrics counts :: events) =
        { finalState := (runSteps true th k (idx + 1) 0 rest events).finalState
          splits := { stable := 100 - p, candidate := p } ::
            (runSteps true th k (idx + 1) 0 rest events).splits
          history := .step idx p .INSUFFICIENT_DATA ::
            (runSteps true th k (idx + 1) 0 rest events).history }) := by
  refine ⟨rfl, rfl, rfl, ?_⟩
  intro hv
  have hne : ¬ ((0 : Nat) = k) := by omega
  rw [runSteps]
  simp only [List.headD_cons, List.tail_cons, hv]
  simp [bumpCounter, hne]

/-- Witness for C6: two evaluation periods, a zero-invocation window at
step 10 of a 10/100 schedule. -/
theorem insufficient_data_advances_witness :
    evaluateObs (1/20) none = .INSUFFICIENT_DATA ∧
    evaluate (1/20) 0 7 = .INSUFFICIENT_DATA ∧
    bumpCounter 1 .INSUFFICIENT_DATA = bumpCounter 1 .OK ∧
    (evaluateObs (1/20) (some (0, 7)) = .INSUFFICIENT_DATA →
      runSteps true (1/20) 2 0 1 [10, 100] [.metrics (some (0, 7))] =
        { finalState := (runSteps true (1/20) 2 1 0 [100] []).finalState
          splits := { stable := 90, candidate := 10 } ::
            (runSteps true (1/20) 2 1 0 [100] []).splits
          history := .step 0 10 .INSUFFICIENT_DATA ::
            (runSteps true (1/20) 2 1 0 [100] []).history }) :=
  insufficient_data_advances (1/20) 2 0 1 10 7 [100] [] (some (0, 7)) (by decide)

/-- C4: every schedule the planner accepts is non-empty, all its
percentages lie in (0,100], the percentages are non-decreasing (strictly
increasing for LINEAR), and the final step is exactly 100 even where
LINEAR arithmetic would overshoot. -/
theorem plan_schedule_invariants (strategy : RolloutStrategy) (steps : List (Nat × Nat))
    (h : plan strategy = .ok steps) :
    steps ≠ [] ∧
    (∀ s ∈ steps, 0 < s.1 ∧ s.1 ≤ 100) ∧
    List.Chain' (fun a b : Nat × Nat => a.1 ≤ b.1) steps ∧
    (steps.map Prod.fst).getLast? = some 100 ∧
    (∀ p i, strategy = .LINEAR p i →
      List.Chain' (fun a b : Nat × Nat => a.1 < b.1) steps) := by
  cases strategy with
  | ALL_AT_ONCE =>
    rw [plan] at h
    simp only [Except.ok.injEq] at h
    subst h
    refine ⟨by simp, ?_, by simp, by simp, ?_⟩
    · intro s hs
      rw [List.mem_singleton] at hs
      subst hs
      exact ⟨by norm_num, le_refl 100⟩
    · intro p i heq
      cases heq
  | CANARY p bake =>
    rw [plan] at h
    split_ifs at h with hp
    push_neg at hp
    obtain ⟨hp0, hp100⟩ := hp
    simp only [Except.ok.injEq] at h
    subst h
    refine ⟨by simp, ?_, ?_, by simp, ?_⟩
    · intro s hs
      rcases List.mem_cons.mp hs with hs | hs
      · subst hs
        exact ⟨Nat.pos_of_ne_zero hp0, le_of_lt hp100⟩
      · rw [List.mem_singleton] at hs
        subst hs
        exact ⟨by norm_num, le_refl 100⟩
    · rw [List.chain'_cons]
      exact ⟨le_of_lt hp100, List.chain'_singleton _⟩
    · intro p' i' heq
      cases heq
  | LINEAR p interval =>
    rw [plan] at h
    split_ifs at h with hp
    push_neg at hp
    obtain ⟨hp0, hp100⟩ := hp
    have hppos : 0 < p := Nat.pos_of_ne_zero hp0
    simp only [Except.ok.injEq] at h
    subst h
    have hbound : ∀ i, i < 99 / p → (i + 1) * p ≤ 99 := by
      intro i hi
      calc (i + 1) * p ≤ (99 / p) * p := Nat.mul_le_mul_right p hi
        _ ≤ 99 := Nat.div_mul_le_self 99 p
    have hstrict : List.Chain' (fun a b : Nat × Nat => a.1 < b.1)
        (((List.range (99 / p)).map fun i => ((i + 1) * p, interval)) ++
          [(100, interval)]) := by
      apply List.Pairwise.chain'
      rw [List.pairwise_append]
      refine ⟨?_, List.pairwise_singleton _ _, ?_⟩
      · rw [List.pairwise_map]
        exact (List.pairwise_lt_range (99 / p)).imp
          (fun hab => Nat.mul_lt_mul_of_lt_of_le (by omega) (le_refl p) hppos)
      · intro a ha b hb
        rw [List.mem_singleton] at hb
        subst hb
        rw [List.mem_map] at ha
        obtain ⟨i, hi, rfl⟩ := ha
        rw [List.mem_range] at hi
        show (i + 1) * p < 100
        exact lt_of_le_of_lt (hbound i hi) (by norm_num)
    refine ⟨by simp, ?_, hstrict.imp (fun a b hab => le_of_lt hab), ?_,
      fun _ _ _ => hstrict⟩
    · intro s hs
      rcases List.mem_append.mp hs with hs | hs
      · rw [List.mem_map] at hs
        obtain ⟨i, hi, rfl⟩ := hs
        rw [List.mem_range] at hi
        exact ⟨Nat.mul_pos (Nat.succ_pos i) hppos,
          le_trans (hbound i hi) (by norm_num)⟩
      · rw [List.mem_singleton] at hs
        subst hs
        exact ⟨by norm_num, le_refl 100⟩
    · rw [List.map_append]
      exact List.getLast?_concat _

/-- Witness for C4: `LINEAR(30)` plans 30/60/90/100 — the overshooting
fourth multiple 120 is closed at exactly 100. -/
theorem plan_schedule_invariants_witness :
    ([(30, 1), (60, 1), (90, 1), (100, 1)] : List (Nat × Nat)) ≠ [] ∧
    (∀ s ∈ ([(30, 1), (60, 1), (90, 1), (100, 1)] : List (Nat × Nat)), 0 < s.1 ∧ s.1 ≤ 100) ∧
    List.Chain' (fun a b : Nat × Nat => a.1 ≤ b.1) [(30, 1), (60, 1), (90, 1), (100, 1)] ∧
    (([(30, 1), (60, 1), (90, 1), (100, 1)] : List (Nat × Nat)).map Prod.fst).getLast? =
      some 100 ∧
    (∀ p i, RolloutStrategy.LINEAR 30 1 = .LINEAR p i →
      List.Chain' (fun a b : Nat × Nat => a.1 < b.1) [(30, 1), (60, 1), (90, 1), (100, 1)]) :=
  plan_schedule_invariants (.LINEAR 30 1) [(30, 1), (60, 1), (90, 1), (100, 1)] rfl

/-- Starting the decider at position `idx` only shifts the reported
signal position. -/
theorem deciderRun_shift (k : Nat) (vs : List AlarmState) :
    ∀ (c idx : Nat), deciderRun k c idx vs = (deciderRun k c 0 vs).map (· + idx) := by
  induction vs with
  | nil => intro c idx; rfl
  | cons v rest ih =>
    intro c idx
    by_cases hck : bumpCounter c v = k
    · simp [deciderRun, hck]
    · simp only [deciderRun, hck, if_false]
      rw [ih (bumpCounter c v) (idx + 1), ih (bumpCounter c v) 1]
      cases deciderRun k (bumpCounter c v) 0 rest with
      | none => rfl
      | some m => simp; omega

/-- No breach window fits inside a pure `BREACH` prefix at or beyond its
end. -/
theorem breachWindow_replicate (c k i : Nat) (hk : 1 ≤ k) :
    ¬ breachWindow (List.replicate c .BREACH) (i + c) k := by
  rintro ⟨hle, hall⟩
  have h0 := hall 0 hk
  rw [Nat.sub_zero] at h0
  rw [List.getElem?_eq_none (by simp)] at h0
  cases h0

/-- A breach window ending right at the head position `c` of
`replicate c BREACH ++ v :: rest` exists exactly when `v` is a breach
and the window fits in the first `c + 1` verdicts. -/
theorem breachWindow_at_head (c k : Nat) (v : AlarmState) (rest : List AlarmState)
    (hk : 1 ≤ k) :
    breachWindow (List.replicate c .BREACH ++ v :: rest) c k ↔
      (v = .BREACH ∧ k ≤ c + 1) := by
  constructor
  · rintro ⟨hle, hall⟩
    have h0 := hall 0 hk
    rw [Nat.sub_zero, List.getElem?_append_right (by simp)] at h0
    simp at h0
    exact ⟨h0, hle⟩
  · rintro ⟨rfl, hle⟩
    refine ⟨hle, ?_⟩
    intro d hd
    by_cases hd0 : d = 0
    · subst hd0
      rw [Nat.sub_zero, List.getElem?_append_right (by simp)]
      simp
    · have hdc : c - d < c := by omega
      rw [List.getElem?_append_left (by simpa using hdc)]
      simp [hdc]

/-- A non-breach head verdict cuts every window crossing it: windows
ending `m + 1` positions past the head of
`replicate c BREACH ++ v :: rest` are exactly the windows ending at
position `m` of `rest`. -/
theorem breachWindow_cons_reset (c k m : Nat) (v : AlarmState) (rest : List AlarmState)
    (hv : v ≠ .BREACH) : breachWindow (List.replicate c .BREACH ++ v :: rest) (m + 1 + c) k ↔
      breachWindow rest m k := by
  constructor
  · rintro ⟨hle, hall⟩
    have hkm : k ≤ m + 1 := by
      by_contra hgt
      push_neg at hgt
      have hd := hall (m + 1) hgt
      rw [show m + 1 + c - (m + 1) = c from by omega,
        List.getElem?_append_right (by simp)] at hd
      simp at hd
      exact hv hd
    refine ⟨hkm, ?_⟩
    intro d hd
    have hd2 := hall d (by omega)
    rw [show m + 1 + c - d = c + (m + 1 - d) from by omega,
      List.getElem?_append_right (by simp)] at hd2
    rw [show c + (m + 1 - d) - (List.replicate c AlarmState.BREACH).length = (m - d) + 1
      from by simp; omega] at hd2
    rw [List.getElem?_cons_succ] at hd2
    exact hd2
  · rintro ⟨hkm, hall⟩
    refine ⟨by omega, ?_⟩
    intro d hd
    have hd2 := hall d hd
    rw [show m + 1 + c - d = c + (m + 1 - d) from by omega,
      List.getElem?_append_right (by simp)]
    rw [show c + (m + 1 - d) - (List.replicate c AlarmState.BREACH).length = (m - d) + 1
      from by simp; omega]
    rw [List.getElem?_cons_succ]
    exact hd2

/-- The decider started at counter `c < k` (as if `c` breaches
immediately preceded) signals at position `i` exactly when `i` ends the
first `k`-breach window of `replicate c BREACH ++ vs`. -/
theorem deciderRun_characterization (k : Nat) (hk : 1 ≤ k) :
    ∀ (vs : List AlarmState) (c i : Nat), c < k →
      (deciderRun k c 0 vs = some i ↔
        (breachWindow (List.replicate c .BREACH ++ vs) (i + c) k ∧
          ∀ j < i, ¬ breachWindow (List.replicate c .BREACH ++ vs) (j + c) k)) := by
  intro vs
  induction vs with
  | nil =>
    intro c i hc
    constructor
    · intro h
      cases h
    · rintro ⟨hw, _⟩
      rw [List.append_nil] at hw
      exact absurd hw (breachWindow_replicate c k i hk)
  | cons v rest ih =>
    intro c i hc
    by_cases hck : bumpCounter c v = k
    · have hv : v = .BREACH := by
        cases v with
        | BREACH => rfl
        | OK => rw [bumpCounter] at hck; omega
        | INSUFFICIENT_DATA => rw [bumpCounter] at hck; omega
      subst hv
      have hkc : k = c + 1 := by rw [bumpCounter] at hck; omega
      have hwin : breachWindow (List.replicate c .BREACH ++ .BREACH :: rest) c k :=
        (breachWindow_at_head c k .BREACH rest hk).mpr ⟨rfl, by omega⟩
      have hrun : deciderRun k c 0 (.BREACH :: rest) = some 0 := by
        simp [deciderRun, hck]
      rw [hrun]
      constructor
      · intro h
        have hi : i = 0 := by
          injection h with h'
          omega
        subst hi
        exact ⟨by simpa using hwin, fun j hj => by omega⟩
      · rintro ⟨hw, hmin⟩
        by_cases hi : i = 0
        · subst hi; rfl
        · exact absurd (by simpa using hwin) (hmin 0 (by omega))
    · have hc' : bumpCounter c v < k := by
        cases v with
        | BREACH => rw [bumpCounter] at hck ⊢; omega
        | OK => rw [bumpCounter] at hck ⊢; omega
        | INSUFFICIENT_DATA => rw [bumpCounter] at hck ⊢; omega
      have hrun : deciderRun k c 0 (v :: rest) =
          (deciderRun k (bumpCounter c v) 0 rest).map (· + 1) := by
        simp only [deciderRun, hck, if_false]
        exact deciderRun_shift k rest (bumpCounter c v) 1
      have hbw0 : ¬ breachWindow (List.replicate c .BREACH ++ v :: rest) (0 + c) k := by
        intro hbw
        rw [Nat.zero_add] at hbw
        rcases (breachWindow_at_head c k v rest hk).mp hbw with ⟨hvB, hkc⟩
        cases v with
        | BREACH => rw [bumpCounter] at hck; omega
        | OK => cases hvB
        | INSUFFICIENT_DATA => cases hvB
      have hbridge : ∀ m,
          breachWindow (List.replicate c .BREACH ++ v :: rest) (m + 1 + c) k ↔
          breachWindow (List.replicate (bumpCounter c v) .BREACH ++ rest)
            (m + bumpCounter c v) k := by
        intro m
        cases v with
        | BREACH =>
          have hlist : List.replicate c AlarmState.BREACH ++ AlarmState.BREACH :: rest =
              List.replicate (c + 1) AlarmState.BREACH ++ rest := by
            rw [List.replicate_succ', List.append_assoc]
            rfl
          rw [hlist]
          simp only [bumpCounter]
          rw [show m + 1 + c = m + (c + 1) from by omega]
        | OK =>
          simp only [bumpCounter, List.replicate_zero, List.nil_append, Nat.add_zero]
          exact breachWindow_cons_reset c k m .OK rest (by simp)
        | INSUFFICIENT_DATA =>
          simp only [bumpCounter, List.replicate_zero, List.nil_append, Nat.add_zero]
          exact breachWindow_cons_reset c k m .INSUFFICIENT_DATA rest (by simp)
      rw [hrun]
      constructor
      · intro h
        obtain ⟨m, hdr, rfl⟩ : ∃ m, deciderRun k (bumpCounter c v) 0 rest = some m ∧
            m + 1 = i := by
          cases hdr : deciderRun k (bumpCounter c v) 0 rest with
          | none => rw [hdr] at h; cases h
          | some m =>
            rw [hdr] at h
            simp at h
            exact ⟨m, rfl, h⟩
        obtain ⟨hw, hmin⟩ := (ih (bumpCounter c v) m hc').mp hdr
        refine ⟨(hbridge m).mpr hw, ?_⟩
        intro j hj
        cases j with
        | zero => exact hbw0
        | succ j' =>
          intro hbw
          exact hmin j' (by omega) ((hbridge j').mp hbw)
      · rintro ⟨hw, hmin⟩
        cases i with
        | zero => exact absurd hw hbw0
        | succ m =>
          have hw' := (hbridge m).mp hw
          have hmin' : ∀ j < m,
              ¬ breachWindow (List.replicate (bumpCounter c v) .BREACH ++ rest)
                (j + bumpCounter c v) k := by
            intro j hj hbw
            exact hmin (j + 1) (by omega) ((hbridge j).mpr hbw)
          rw [(ih (bumpCounter c v) m hc').mpr ⟨hw', hmin'⟩]
          rfl

/-- C2: the RollbackDecider, run over any verdict sequence with counter
incremented on `BREACH` and reset on `OK` or `INSUFFICIENT_DATA`,
signals rollback exactly once — at the first position ending a run of
`evaluationPeriods` consecutive `BREACH` verdicts — and never before; in
particular `BREACH, BREACH, OK, BREACH, BREACH` with three evaluation
periods never signals. -/
theorem rollbackDecider_first_window (k i : Nat) (verdicts : List AlarmState)
    (hk : 1 ≤ k) :
    (rollbackIndex k verdicts = some i ↔
      (breachWindow verdicts i k ∧ ∀ j < i, ¬ breachWindow verdicts j k)) ∧
    rollbackIndex 3 [.BREACH, .BREACH, .OK, .BREACH, .BREACH] = none := by
  constructor
  · have hch := deciderRun_characterization k hk verdicts 0 i (by omega)
    rw [rollbackIndex]
    simpa using hch
  · decide

/-- The verdict sequence `BREACH, OK, BREACH, BREACH`: with two
evaluation periods the decider signals at position 3. -/
def sampleVerdicts : List AlarmState := [.BREACH, .OK, .BREACH, .BREACH]

/-- Witness for C2 on `sampleVerdicts` with two evaluation periods and
signal position 3. -/
theorem rollbackDecider_first_window_witness :
    (rollbackIndex 2 sampleVerdicts = some 3 ↔
      (breachWindow sampleVerdicts 3 2 ∧ ∀ j < 3, ¬ breachWindow sampleVerdicts j 2)) ∧
    rollbackIndex 3 [.BREACH, .BREACH, .OK, .BREACH, .BREACH] = none :=
  rollbackDecider_first_window 2 3 sampleVerdicts (by decide)
